import Mathlib

/-!
Verification of the user-facing accessor ("Lens") layer of the python-lenses
library, as presented in `lenses/ui.py` (with `lenses/ui/base.py` a typed
near-duplicate).  The UI layer pairs an optic chain with an optional target
state and delegates the query operations (`get`, `get_all`, `get_monoid`,
`set`, `modify`, `call`, `call_mut`, `construct`) to the underlying optic's
core algorithm (`to_list_of`, `over`, `view`, `re`).

The concrete optics package (`lenses/optics`) is not part of the excerpt, so
its interface (`to_list_of`, `over`, `set`, `view`, `re`, `compose`) is
modelled from the specification over a small universe of Python-like values.
Everything in the `LensUI` namespace is translated directly from
`lenses/ui.py`.
-/

/-- A universe of Python-like values: `Val.none` represents Python's `None`
(which the UI layer uses as the sentinel for "no bound state"), plus
integers, strings, lists and attribute-carrying objects. -/
inductive Val where
  | none
  | int (n : Int)
  | str (s : String)
  | list (xs : List Val)
  | obj (fields : List (String × Val))

/-- The error kinds raised by the library (spec section 7): `valueError`
carries the message of the state-binding `ValueError`s from
`Lens._assert_bound` / `Lens._assert_unbound`; `indexError` is the
indexing/empty-focus error; `capabilityError` is the capability-mismatch
error raised by `re()` on a non-reversible chain. -/
inductive PyErr where
  | valueError (msg : String)
  | indexError
  | typeError
  | attributeError
  | capabilityError
deriving DecidableEq

/-- Modelled from the spec: a Composite Optic (spec section 3) is a chain of
optic-kind instances.  The leaves cover the kinds the claims exercise:
`trivialIso` is the identity composite (`optics.TrivialIso`, the default for
an empty accessor), `getitem` is the Lens-kind item accessor
(`optics.GetitemLens`), `both` the two-focus traversal
(`optics.BothTraversal`), `filt` the zero-or-one-focus prism
(`optics.FilteringPrism`), `iso` a user-supplied isomorphism
(`optics.Isomorphism`), `getzoomattr` the attribute traversal
(`optics.GetZoomAttrTraversal`), and `comp` is composition
(`LensLike.compose`). -/
inductive Optic where
  | trivialIso
  | getitem (i : Nat)
  | both
  | filt (p : Val → Bool)
  | iso (fwd bwd : Val → Val)
  | getzoomattr (attr : String)
  | comp (o₁ o₂ : Optic)

/-- `attrLookup fields n` looks up attribute `n` in an object's field list
(the model of Python's `getattr` on a plain object). -/
def attrLookup : List (String × Val) → String → Option Val
  | [], _ => Option.none
  | (k, v) :: rest, n => if k = n then some v else attrLookup rest n

/-- `attrSet fields n w` replaces the first binding of attribute `n` by `w`
(the model of `setattr` on an existing attribute). -/
def attrSet : List (String × Val) → String → Val → List (String × Val)
  | [], _, _ => []
  | (k, v) :: rest, n, w => if k = n then (k, w) :: rest else (k, v) :: attrSet rest n w

/-- Modelled from the spec (section 4.2, `to_list_of`): the foci of a single
non-composite optic step at one state.  A `getitem` out of range and a
missing attribute raise, a prism miss yields the empty focus list. -/
def atomFoci (o : Optic) (s : Val) : Except PyErr (List Val) :=
  match o, s with
  | .getitem i, .list xs => if h : i < xs.length then .ok [xs[i]] else .error .indexError
  | .getitem _, _ => .error .typeError
  | .both, .list (a :: b :: _) => .ok [a, b]
  | .both, .list _ => .error .indexError
  | .both, _ => .error .typeError
  | .filt p, s => .ok (if p s then [s] else [])
  | .iso fwd _, s => .ok [fwd s]
  | .getzoomattr n, .obj fields =>
    match attrLookup fields n with
    | some v => .ok [v]
    | Option.none => .error .attributeError
  | .getzoomattr _, _ => .error .attributeError
  | _, s => .ok [s]

/-- Effectful concat-map over a list of intermediate substates. -/
def exceptConcatMap (f : Val → Except PyErr (List Val)) : List Val → Except PyErr (List Val)
  | [] => .ok []
  | v :: vs => do
    let l₁ ← f v
    let l₂ ← exceptConcatMap f vs
    .ok (l₁ ++ l₂)

/-- Modelled from the spec (section 4.2): `to_list_of` "runs the accumulated
optics left-to-right, at each step expanding the current list of
intermediate substates into the list of all foci reachable through that
step".  `fociList` is that expansion step on a list of substates. -/
def Optic.fociList : Optic → List Val → Except PyErr (List Val)
  | .comp a b, ss => do
    let mids ← a.fociList ss
    b.fociList mids
  | .trivialIso, ss => .ok ss
  | o, ss => exceptConcatMap (atomFoci o) ss

/-- Modelled from the spec: `LensLike.to_list_of(state)`, the full focus list
of a composite optic at one state. -/
def Optic.toListOf (o : Optic) (s : Val) : Except PyErr (List Val) :=
  o.fociList [s]

/-- Modelled from the spec (section 4.2, `over`): applies a (possibly
failing) modification to every focus and "reconstructs a new state by
replaying each optic's setter logic inside-out". -/
def Optic.overE : Optic → Val → (Val → Except PyErr Val) → Except PyErr Val
  | .trivialIso, s, f => f s
  | .getitem i, s, f =>
    match s with
    | .list xs =>
      if h : i < xs.length then do
        let v ← f xs[i]
        .ok (.list (xs.set i v))
      else .error .indexError
    | _ => .error .typeError
  | .both, s, f =>
    match s with
    | .list (a :: b :: rest) => do
      let a' ← f a
      let b' ← f b
      .ok (.list (a' :: b' :: rest))
    | .list _ => .error .indexError
    | _ => .error .typeError
  | .filt p, s, f => if p s then f s else .ok s
  | .iso fwd bwd, s, f => do
    let v ← f (fwd s)
    .ok (bwd v)
  | .getzoomattr n, s, f =>
    match s with
    | .obj fields =>
      match attrLookup fields n with
      | some v => do
        let v' ← f v
        .ok (.obj (attrSet fields n v'))
      | Option.none => .error .attributeError
    | _ => .error .attributeError
  | .comp a b, s, f => a.overE s (fun m => b.overE m f)

/-- Modelled from the spec: `LensLike.over(state, function)` with a pure
modification function. -/
def Optic.over (o : Optic) (s : Val) (f : Val → Val) : Except PyErr Val :=
  o.overE s (fun v => .ok (f v))

/-- Modelled from the spec (section 4.3): `LensLike.set(state, value)` is
`over` with the constant function ("`set(new_value)`: equivalent to
`modify(lambda _: new_value)`"). -/
def Optic.set (o : Optic) (s v : Val) : Except PyErr Val :=
  o.over s (fun _ => v)

/-- Modelled from the spec (section 4.3, `get_monoid`): the
associative-append operation dispatched on the runtime kind of the foci. -/
def mappend : Val → Val → Except PyErr Val
  | .int m, .int n => .ok (.int (m + n))
  | .str a, .str b => .ok (.str (a ++ b))
  | .list xs, .list ys => .ok (.list (xs ++ ys))
  | _, _ => .error .typeError

/-- Folds a non-empty focus list with `mappend`. -/
def mconcat : List Val → Except PyErr Val
  | [] => .error .typeError
  | [v] => .ok v
  | v :: rest => do
    let r ← mconcat rest
    mappend v r

/-- Modelled from the spec (section 4.2): `view(state)` is "`to_list_of` but
merges all foci into a single value" with the monoid append. -/
def Optic.view (o : Optic) (s : Val) : Except PyErr Val := do
  let foci ← o.toListOf s
  mconcat foci

/-- Modelled from the spec: `LensLike.compose` appends the second chain
after the first. -/
def Optic.compose (a b : Optic) : Optic := .comp a b

/-- Whether every optic in the chain is reversible
(Isomorphism/Equality-kind). -/
def Optic.reversible : Optic → Bool
  | .trivialIso => true
  | .iso _ _ => true
  | .comp a b => a.reversible && b.reversible
  | _ => false

/-- Modelled from the spec (section 4.2, `re`): "valid only when every optic
in the chain is an Isomorphism or Equality; produces a new CompositeOptic
whose forward and backward directions are swapped end-to-end-reversed.
Fails with a capability error otherwise." -/
def Optic.re : Optic → Except PyErr Optic
  | .trivialIso => .ok .trivialIso
  | .iso fwd bwd => .ok (.iso bwd fwd)
  | .comp a b => do
    let rb ← b.re
    let ra ← a.re
    .ok (.comp rb ra)
  | _ => .error .capabilityError

/-- The well-behavedness contract the library documents for user-supplied
isomorphisms (`lenses/ui.py`, `iso_` docstring: "These equalities should
hold for the functions you supply: `backwards(forwards(state)) == state`"). -/
def Optic.wellBehaved : Optic → Prop
  | .iso fwd bwd => ∀ v, bwd (fwd v) = v
  | .comp a b => a.wellBehaved ∧ b.wellBehaved
  | _ => True

/-- `v.isNone` models Python's `v is None` test. -/
def Val.isNone : Val → Bool
  | .none => true
  | _ => false

/-- The user-facing accessor from `lenses/ui.py`: a `state` (where
`Val.none` plays the role of Python's `None`, i.e. "unbound") paired with
an optic chain (`__slots__ = ['state', 'lens']`). -/
structure LensUI where
  state : Val
  lens : Optic

/-- `Lens.__init__(self, state=None, lens=None)`: a missing optic defaults
to `optics.TrivialIso()`. -/
def lensMk (state : Val) (lens : Option Optic) : LensUI :=
  ⟨state, lens.getD .trivialIso⟩

/-- `Lens._assert_bound(name)`: raises `ValueError(name + ' requires a
bound lens')` when `self.state is None`. -/
def LensUI.assertBound (l : LensUI) (name : String) : Except PyErr Unit :=
  if l.state.isNone then .error (.valueError (name ++ " requires a bound lens")) else .ok ()

/-- `Lens._assert_unbound(name)`: raises `ValueError(name + ' requires an
unbound lens')` when `self.state is not None`. -/
def LensUI.assertUnbound (l : LensUI) (name : String) : Except PyErr Unit :=
  if l.state.isNone then .ok () else .error (.valueError (name ++ " requires an unbound lens"))

/-- `Lens.bind(state)`: asserts the lens is unbound, then returns
`Lens(state, self.lens)`. -/
def LensUI.bind (l : LensUI) (state : Val) : Except PyErr LensUI := do
  l.assertUnbound "Lens.bind"
  .ok ⟨state, l.lens⟩

/-- The `if state is not None: self = self.bind(state)` prologue shared by
every query method of `lenses/ui.py`. -/
def LensUI.bindIf (l : LensUI) (state : Val) : Except PyErr LensUI :=
  if state.isNone then .ok l else l.bind state

/-- `Lens.get(state=None)`: optional rebinding, `_assert_bound('Lens.get')`,
then `self.lens.to_list_of(self.state)[0]` — indexing an empty list raises
the `IndexError`. -/
def LensUI.get (l : LensUI) (state : Val) : Except PyErr Val := do
  let l ← l.bindIf state
  l.assertBound "Lens.get"
  let foci ← l.lens.toListOf l.state
  match foci with
  | [] => .error .indexError
  | x :: _ => .ok x

/-- `Lens.get_all(state=None)`: the full `to_list_of` result. -/
def LensUI.get_all (l : LensUI) (state : Val) : Except PyErr (List Val) := do
  let l ← l.bindIf state
  l.assertBound "Lens.get_all"
  l.lens.toListOf l.state

/-- `Lens.get_monoid(state=None)`: delegates to `self.lens.view`. -/
def LensUI.get_monoid (l : LensUI) (state : Val) : Except PyErr Val := do
  let l ← l.bindIf state
  l.assertBound "Lens.get_monoid"
  l.lens.view l.state

/-- `Lens.set(newvalue, state=None)`: delegates to `self.lens.set`. -/
def LensUI.set (l : LensUI) (newvalue : Val) (state : Val) : Except PyErr Val := do
  let l ← l.bindIf state
  l.assertBound "Lens.set"
  l.lens.set l.state newvalue

/-- `Lens.modify(func, state=None)`: delegates to `self.lens.over`. -/
def LensUI.modify (l : LensUI) (func : Val → Val) (state : Val) : Except PyErr Val := do
  let l ← l.bindIf state
  l.assertBound "Lens.modify"
  l.lens.over l.state func

/-- The ambient Python method-dispatch surface the UI layer relies on:
`getattrFn a name args` models `getattr(a, name)(*args)` for a method that
returns a new focus; `mutGetattrFn a name args` models calling a mutating
method (its return value is discarded, the mutated receiver is the result);
`copyFn`/`deepcopyFn` model `copy.copy`/`copy.deepcopy`. -/
structure PyEnv where
  getattrFn : Val → String → List Val → Val
  mutGetattrFn : Val → String → List Val → Val
  copyFn : Val → Val
  deepcopyFn : Val → Val

/-- `Lens.call(method_name, *args, state=...)`: optional rebinding, then
`self.modify(lambda a: getattr(a, method_name)(*args))`. -/
def LensUI.call (l : LensUI) (env : PyEnv) (method_name : String) (args : List Val)
    (state : Val) : Except PyErr Val := do
  let l ← l.bindIf state
  l.modify (fun a => env.getattrFn a method_name args) .none

/-- `Lens.call_mut(method_name, *args, shallow=False, state=...)`: optional
rebinding, then `self.modify(func)` where `func` copies the focus (a
shallow `copy.copy` when `shallow` else `copy.deepcopy`), invokes the named
mutating method on the copy discarding its return value, and returns the
copy. -/
def LensUI.call_mut (l : LensUI) (env : PyEnv) (method_name : String) (args : List Val)
    (shallow : Bool) (state : Val) : Except PyErr Val := do
  let l ← l.bindIf state
  l.modify (fun a =>
    env.mutGetattrFn ((if shallow then env.copyFn else env.deepcopyFn) a) method_name args)
    .none

/-- `Lens.construct(focus=None)`: optional rebinding of the focus as the
state, `_assert_bound('Lens.construct')`, then `self.lens.re().view(self.state)`. -/
def LensUI.construct (l : LensUI) (focus : Val) : Except PyErr Val := do
  let l ← l.bindIf focus
  l.assertBound "Lens.construct"
  let r ← l.lens.re
  r.view l.state

/-- `Lens.add_lens(other)` for a bare `optics.LensLike` argument:
`Lens(self.state, self.lens.compose(other))`. -/
def LensUI.add_lens (l : LensUI) (other : Optic) : LensUI :=
  ⟨l.state, l.lens.compose other⟩

/-- `Lens.__getitem__(name)`: composes a plain `optics.GetitemLens(name)`. -/
def LensUI.getitemUI (l : LensUI) (key : Nat) : LensUI :=
  l.add_lens (.getitem key)

/-- Models Python's `str.endswith`. -/
def strEndsWith (s t : String) : Bool := t.data.isSuffixOf s.data

/-- Models Python's `str.startswith`. -/
def strStartsWith (s t : String) : Bool := t.data.isPrefixOf s.data

/-- The possible results of `Lens.__getattr__`: an `AttributeError`, a
synthesized bound method, or a new accessor. -/
inductive AttrResult where
  | attrError
  | caller (f : List Val → Except PyErr Val)
  | lens (l : LensUI)

/-- `Lens.__getattr__(name)`: names ending in `_` raise
`AttributeError('Not a valid lens constructor')`; a `call_mut_` prefix
synthesizes `lambda *args: self.call_mut(name[9:], *args)`; a `call_`
prefix synthesizes `lambda *args: self.call(name[5:], *args)`; otherwise the
accessor composed with `optics.GetZoomAttrTraversal(name)` is returned. -/
def LensUI.getattrUI (l : LensUI) (env : PyEnv) (name : String) : AttrResult :=
  if strEndsWith name "_" then .attrError
  else if strStartsWith name "call_mut_" then
    .caller (fun args => l.call_mut env (name.drop 9) args false .none)
  else if strStartsWith name "call_" then
    .caller (fun args => l.call env (name.drop 5) args .none)
  else .lens (l.add_lens (.getzoomattr name))

/-- The `transparent_dunders` table of `lenses/ui.py` (lines 8-20): the
relational/arithmetic operator names redefined on the `Lens` class by
`_add_extra_methods`. -/
def transparent_dunders : List String :=
  ["__lt__", "__le__", "__eq__", "__ne__", "__gt__", "__ge__",
   "__add__", "__sub__", "__mul__", "__matmul__", "__truediv__",
   "__floordiv__", "__div__", "__mod__", "__divmod__", "__pow__",
   "__lshift__", "__rshift__", "__and__", "__xor__", "__or__",
   "__radd__", "__rsub__", "__rmul__", "__rmatmul__", "__rtruediv__",
   "__rfloordiv__", "__rdiv__", "__rmod__", "__rdivmod__", "__rpow__",
   "__rlshift__", "__rrshift__", "__rand__", "__rxor__", "__ror__",
   "__neg__", "__pos__", "__invert__"]

/-- Python's augmented (in-place/compound-assignment) arithmetic dunder
names — the ones the source's comment says are deliberately skipped
"because the point of the lenses library is not to mutate anything". -/
def inplace_dunders : List String :=
  ["__iadd__", "__isub__", "__imul__", "__imatmul__", "__itruediv__",
   "__ifloordiv__", "__imod__", "__ipow__", "__ilshift__", "__irshift__",
   "__iand__", "__ixor__", "__ior__"]

/-- `_carry_op(name)` of `lenses/ui.py`: the operation installed for each
transparent dunder, `lambda self, *args: self.modify(lambda a:
getattr(a, name)(*args))`. -/
def carry_op (env : PyEnv) (name : String) : LensUI → List Val → Except PyErr Val :=
  fun self args => self.modify (fun a => env.getattrFn a name args) .none

/-- A trivial method-dispatch environment, used to instantiate theorems at
concrete inputs. -/
def envId : PyEnv :=
  ⟨fun a _ _ => a, fun a _ _ => a, fun a => a, fun a => a⟩

/-! ### A heap model for `call_mut`

`call_mut`'s guarantee is about object identity: the focus is copied before
the mutating method runs, so the original state's focus object is neither
mutated nor shared with the result.  To state that, inner lists live in an
explicit heap of list-of-integer cells addressed by allocation order, and
the outer state is a list of cell addresses. -/

/-- A heap of Python list objects (each a list of integers); the address of
a cell is its index, and allocation appends. -/
structure Heap where
  cells : List (List Int)

/-- Dereference an address. -/
def Heap.read (h : Heap) (a : Nat) : List Int :=
  (h.cells[a]?).getD []

/-- Allocate a fresh cell, returning the new heap and the fresh address. -/
def Heap.alloc (h : Heap) (v : List Int) : Heap × Nat :=
  (⟨h.cells ++ [v]⟩, h.cells.length)

/-- Overwrite the cell at an address (an in-place mutation of that object). -/
def Heap.write (h : Heap) (a : Nat) (v : List Int) : Heap :=
  ⟨h.cells.set a v⟩

/-- Modelled from the interface of Python's `copy.copy` (out of scope per
spec section 1): on a flat list of (immutable) integers it allocates a
fresh list object with the same elements. -/
def copyCell (h : Heap) (a : Nat) : Heap × Nat :=
  h.alloc (h.read a)

/-- Modelled from the interface of Python's `copy.deepcopy`: on a flat list
of integers it coincides with the shallow copy — a fresh cell with the same
elements. -/
def deepcopyCell (h : Heap) (a : Nat) : Heap × Nat :=
  h.alloc (h.read a)

/-- The mutating-method dispatch table for the heap model: `'sort'` sorts a
list cell in place (Python's `list.sort`); other names mutate nothing. -/
def sortMethods (name : String) (h : Heap) (a : Nat) : Heap :=
  if name = "sort" then h.write a ((h.read a).insertionSort (· ≤ ·)) else h

/-- `Lens.call_mut` specialised to a bound accessor whose optic is
`GetitemLens i` over the heap model: look up the focus address, copy the
focus cell (`copy.copy` when `shallow` else `copy.deepcopy`), invoke the
named mutating method on the copy (its return value is discarded), and
rebuild the outer state with the copy as the new focus. -/
def call_mut_heap (methods : String → Heap → Nat → Heap) (method_name : String)
    (shallow : Bool) (i : Nat) (h : Heap) (outer : List Nat) :
    Except PyErr (Heap × List Nat) :=
  match outer[i]? with
  | Option.none => .error .indexError
  | some a =>
    let hp := if shallow then copyCell h a else deepcopyCell h a
    let h₂ := methods method_name hp.1 hp.2
    .ok (h₂, outer.set i hp.2)

/-! ### Helper lemmas -/

@[simp] theorem ebind_ok {α β : Type} (v : α) (g : α → Except PyErr β) :
    (Except.ok v >>= g) = g v := rfl

@[simp] theorem ebind_err {α β : Type} (e : PyErr) (g : α → Except PyErr β) :
    ((Except.error e : Except PyErr α) >>= g) = .error e := rfl

theorem except_bind_ok_inv {α β : Type} {x : Except PyErr α} {g : α → Except PyErr β} {t : β}
    (h : (x >>= g) = .ok t) : ∃ v, x = .ok v ∧ g v = .ok t := by
  cases x with
  | error e => rw [ebind_err] at h; exact Except.noConfusion h
  | ok v => exact ⟨v, rfl, by rw [ebind_ok] at h; exact h⟩

theorem val_isNone_false (v : Val) (h : v ≠ .none) : v.isNone = false := by
  cases v with
  | none => exact absurd rfl h
  | int n => rfl
  | str s => rfl
  | list xs => rfl
  | obj fs => rfl

theorem bound_assert (l : LensUI) (h : l.state ≠ .none) (name : String) :
    l.assertBound name = .ok () := by
  simp [LensUI.assertBound, val_isNone_false l.state h]

theorem bindIf_none (l : LensUI) : l.bindIf .none = .ok l := rfl

theorem bind_of_bound (l : LensUI) (h : l.state ≠ .none) (s : Val) :
    l.bind s = .error (.valueError "Lens.bind requires an unbound lens") := by
  simp [LensUI.bind, LensUI.assertUnbound, val_isNone_false l.state h]

theorem bind_of_unbound (l : LensUI) (h : l.state = .none) (s : Val) :
    l.bind s = .ok ⟨s, l.lens⟩ := by
  simp [LensUI.bind, LensUI.assertUnbound, h, Val.isNone]

theorem unbound_errs (l : LensUI) (h : l.state = .none) :
    l.get .none = .error (.valueError "Lens.get requires a bound lens")
  ∧ l.get_all .none = .error (.valueError "Lens.get_all requires a bound lens")
  ∧ l.get_monoid .none = .error (.valueError "Lens.get_monoid requires a bound lens")
  ∧ (∀ v, l.set v .none = .error (.valueError "Lens.set requires a bound lens"))
  ∧ (∀ f, l.modify f .none = .error (.valueError "Lens.modify requires a bound lens"))
  ∧ l.construct .none = .error (.valueError "Lens.construct requires a bound lens") := by
  obtain ⟨st, o⟩ := l
  have h' : st = .none := h
  subst h'
  exact ⟨rfl, rfl, rfl, fun v => rfl, fun f => rfl, rfl⟩

/-! ### Claim theorems -/

/-- C2: for every bound accessor, `set(v)` returns the same new state as
`modify(lambda _: v)`: `set` delegates to the optic's `set`, which the spec
defines as `over` with the constant function, so the two are observably
equivalent on all states and optic chains. -/
theorem claim2_set_eq_modify_const (l : LensUI) (v st : Val) (h : l.state ≠ .none) :
    l.set v st = l.modify (fun _ => v) st := by
  by_cases hn : st = .none
  · subst hn
    simp [LensUI.set, LensUI.modify, bindIf_none, bound_assert l h, Optic.set]
  · simp [LensUI.set, LensUI.modify, LensUI.bindIf, val_isNone_false st hn,
          bind_of_bound l h st]

theorem claim2_witness :
    LensUI.set ⟨.list [.int 1, .int 2, .int 3], .getitem 1⟩ (.int 4) .none
      = LensUI.modify ⟨.list [.int 1, .int 2, .int 3], .getitem 1⟩ (fun _ => .int 4) .none :=
  claim2_set_eq_modify_const _ _ _ (by simp)

/-- C3: every query operation (`get`, `get_all`, `get_monoid`, `set`,
`modify`, `construct`) on an unbound accessor with no state argument raises
the state-binding `ValueError` immediately and never returns a value. -/
theorem claim3_unbound_query_errors (l : LensUI) (h : l.state = .none) :
    l.get .none = .error (.valueError "Lens.get requires a bound lens")
  ∧ l.get_all .none = .error (.valueError "Lens.get_all requires a bound lens")
  ∧ l.get_monoid .none = .error (.valueError "Lens.get_monoid requires a bound lens")
  ∧ (∀ v, l.set v .none = .error (.valueError "Lens.set requires a bound lens"))
  ∧ (∀ f, l.modify f .none = .error (.valueError "Lens.modify requires a bound lens"))
  ∧ l.construct .none = .error (.valueError "Lens.construct requires a bound lens") :=
  unbound_errs l h

theorem claim3_witness :
    LensUI.get ⟨.none, .trivialIso⟩ .none
      = .error (.valueError "Lens.get requires a bound lens")
  ∧ LensUI.construct ⟨.none, .trivialIso⟩ .none
      = .error (.valueError "Lens.construct requires a bound lens") :=
  ⟨(claim3_unbound_query_errors ⟨.none, .trivialIso⟩ rfl).1,
   (claim3_unbound_query_errors ⟨.none, .trivialIso⟩ rfl).2.2.2.2.2⟩

/-- C4: `bind` on an already-bound accessor raises the state-binding
`ValueError` (the accessor itself, a pure value, is left unchanged); `bind`
on an unbound accessor returns a new accessor pairing the same optic chain
with the given state, without mutating the original. -/
theorem claim4_bind_semantics (l : LensUI) (s : Val) :
    (l.state ≠ .none → l.bind s = .error (.valueError "Lens.bind requires an unbound lens"))
  ∧ (l.state = .none → l.bind s = .ok ⟨s, l.lens⟩) :=
  ⟨fun h => bind_of_bound l h s, fun h => bind_of_unbound l h s⟩

theorem claim4_witness :
    LensUI.bind ⟨.int 1, .trivialIso⟩ (.int 2)
      = .error (.valueError "Lens.bind requires an unbound lens")
  ∧ LensUI.bind ⟨.none, .getitem 0⟩ (.int 2) = .ok ⟨.int 2, .getitem 0⟩ :=
  ⟨(claim4_bind_semantics ⟨.int 1, .trivialIso⟩ (.int 2)).1 (by simp),
   (claim4_bind_semantics ⟨.none, .getitem 0⟩ (.int 2)).2 rfl⟩

/-- C5: every operator in the `transparent_dunders` set (including `__eq__`
and `__ne__`) is carried to the focus: the installed operation is exactly
`self.modify(lambda a: getattr(a, name)(*args))` (equivalently
`self.call(name, *args)`), and no in-place/compound-assignment operator
such as `__iadd__` is among the redefined dunders. -/
theorem claim5_operator_passthrough (env : PyEnv) (name : String) (self : LensUI)
    (args : List Val) :
    carry_op env name self args = self.modify (fun a => env.getattrFn a name args) .none
  ∧ carry_op env name self args = self.call env name args .none
  ∧ "__eq__" ∈ transparent_dunders
  ∧ "__ne__" ∈ transparent_dunders
  ∧ "__iadd__" ∉ transparent_dunders
  ∧ (∀ n ∈ inplace_dunders, n ∉ transparent_dunders) :=
  ⟨rfl, rfl, by decide, by decide, by decide, by decide⟩

theorem claim5_witness : "__ior__" ∉ transparent_dunders :=
  (claim5_operator_passthrough envId "__add__" ⟨.none, .trivialIso⟩ []).2.2.2.2.2
    "__ior__" (by decide)

/-- C1: on a bound accessor, `get()` returns the head of the `get_all()`
list whenever it is non-empty, and raises the indexing/empty-focus error
when the chain resolves to zero foci. -/
theorem claim1_get_head_of_get_all (l : LensUI) (h : l.state ≠ .none) :
    (∀ x xs, l.get_all .none = .ok (x :: xs) → l.get .none = .ok x)
  ∧ (l.get_all .none = .ok [] → l.get .none = .error .indexError) := by
  have hga : l.get_all .none = l.lens.toListOf l.state := by
    simp [LensUI.get_all, bindIf_none, bound_assert l h]
  constructor
  · intro x xs hxs
    rw [hga] at hxs
    simp [LensUI.get, bindIf_none, bound_assert l h, hxs]
  · intro hnil
    rw [hga] at hnil
    simp [LensUI.get, bindIf_none, bound_assert l h, hnil]

theorem claim1_witness :
    LensUI.get ⟨.list [.int 1, .int 2, .int 3], .getitem 0⟩ .none = .ok (.int 1)
  ∧ LensUI.get ⟨.int 7, .filt (fun _ => false)⟩ .none = .error .indexError :=
  ⟨(claim1_get_head_of_get_all ⟨.list [.int 1, .int 2, .int 3], .getitem 0⟩ (by simp)).1
      (.int 1) [] rfl,
   (claim1_get_head_of_get_all ⟨.int 7, .filt (fun _ => false)⟩ (by simp)).2 rfl⟩

/-- C7: `__getattr__` dispatch — a trailing underscore raises the attribute
error; a `call_mut_` prefix yields a caller equivalent to `call_mut` with
the remaining suffix as method name; a `call_` prefix yields a caller
equivalent to `call` with the remaining suffix; any other name composes a
get-or-zoom attribute traversal; and `__getitem__` composes a plain
item-access optic. -/
theorem claim7_getattr_dispatch (env : PyEnv) (l : LensUI) (name : String) :
    (strEndsWith name "_" = true → l.getattrUI env name = .attrError)
  ∧ (strEndsWith name "_" = false → strStartsWith name "call_mut_" = true →
      l.getattrUI env name
        = .caller (fun args => l.call_mut env (name.drop 9) args false .none))
  ∧ (strEndsWith name "_" = false → strStartsWith name "call_mut_" = false →
      strStartsWith name "call_" = true →
      l.getattrUI env name = .caller (fun args => l.call env (name.drop 5) args .none))
  ∧ (strEndsWith name "_" = false → strStartsWith name "call_mut_" = false →
      strStartsWith name "call_" = false →
      l.getattrUI env name = .lens (l.add_lens (.getzoomattr name)))
  ∧ (∀ key, l.getitemUI key = l.add_lens (.getitem key)) := by
  refine ⟨?_, ?_, ?_, ?_, fun key => rfl⟩
  · intro h1
    simp [LensUI.getattrUI, h1]
  · intro h1 h2
    simp [LensUI.getattrUI, h1, h2]
  · intro h1 h2 h3
    simp [LensUI.getattrUI, h1, h2, h3]
  · intro h1 h2 h3
    simp [LensUI.getattrUI, h1, h2, h3]

theorem claim7_witness :
    ((⟨.none, .trivialIso⟩ : LensUI).getattrUI envId "both_" = .attrError)
  ∧ ((⟨.none, .trivialIso⟩ : LensUI).getattrUI envId "call_mut_sort"
      = .caller (fun args =>
          LensUI.call_mut ⟨.none, .trivialIso⟩ envId "sort" args false .none))
  ∧ ((⟨.none, .trivialIso⟩ : LensUI).getattrUI envId "call_upper"
      = .caller (fun args => LensUI.call ⟨.none, .trivialIso⟩ envId "upper" args .none))
  ∧ ((⟨.none, .trivialIso⟩ : LensUI).getattrUI envId "left"
      = .lens (LensUI.add_lens ⟨.none, .trivialIso⟩ (.getzoomattr "left"))) :=
  ⟨(claim7_getattr_dispatch envId ⟨.none, .trivialIso⟩ "both_").1 (by decide),
   (claim7_getattr_dispatch envId ⟨.none, .trivialIso⟩ "call_mut_sort").2.1
      (by decide) (by decide),
   (claim7_getattr_dispatch envId ⟨.none, .trivialIso⟩ "call_upper").2.2.1
      (by decide) (by decide) (by decide),
   (claim7_getattr_dispatch envId ⟨.none, .trivialIso⟩ "left").2.2.2.1
      (by decide) (by decide) (by decide)⟩

theorem list_set_self {α : Type} :
    ∀ (xs : List α) (i : Nat) (h : i < xs.length), xs.set i xs[i] = xs
  | _ :: _, 0, _ => rfl
  | x :: xs, i + 1, h =>
    congrArg (fun ys => x :: ys) (list_set_self xs i (Nat.lt_of_succ_lt_succ h))

theorem attrSet_lookup_self :
    ∀ (fields : List (String × Val)) (n : String) (v : Val),
      attrLookup fields n = some v → attrSet fields n v = fields := by
  intro fields
  induction fields with
  | nil => intro n v h; exact Option.noConfusion h
  | cons p rest ih =>
    intro n v h
    obtain ⟨k, w⟩ := p
    by_cases hk : k = n
    · simp only [attrLookup, if_pos hk] at h
      injection h with h
      simp [attrSet, hk, h]
    · simp only [attrLookup, if_neg hk] at h
      simp [attrSet, hk, ih n v h]

/-- The identity law for the modelled `over`, generalised to an effectful
modifier: when every user isomorphism in the chain satisfies its documented
round-trip contract and the modifier returns its input unchanged whenever
it succeeds, `over` can only succeed with the original state. -/
theorem overE_id_ok :
    ∀ (o : Optic), o.wellBehaved →
      ∀ (f : Val → Except PyErr Val), (∀ v t, f v = .ok t → t = v) →
      ∀ (s t : Val), o.overE s f = .ok t → t = s := by
  intro o
  induction o with
  | trivialIso =>
    intro _ f hf s t h
    exact hf s t h
  | getitem i =>
    intro _ f hf s t h
    cases s with
    | list xs =>
      simp only [Optic.overE] at h
      split at h
      · next hi =>
        obtain ⟨v, hv, hg⟩ := except_bind_ok_inv h
        obtain rfl := hf _ _ hv
        injection hg with hg
        rw [← hg, list_set_self xs i hi]
      · exact Except.noConfusion h
    | none => exact Except.noConfusion h
    | int n => exact Except.noConfusion h
    | str a => exact Except.noConfusion h
    | obj fs => exact Except.noConfusion h
  | both =>
    intro _ f hf s t h
    cases s with
    | list xs =>
      match xs with
      | [] => exact Except.noConfusion h
      | [a] => exact Except.noConfusion h
      | a :: b :: rest =>
        simp only [Optic.overE] at h
        obtain ⟨a', ha, h2⟩ := except_bind_ok_inv h
        obtain ⟨b', hb2, h3⟩ := except_bind_ok_inv h2
        obtain rfl := hf _ _ ha
        obtain rfl := hf _ _ hb2
        injection h3 with h3
        exact h3.symm
    | none => exact Except.noConfusion h
    | int n => exact Except.noConfusion h
    | str a => exact Except.noConfusion h
    | obj fs => exact Except.noConfusion h
  | filt p =>
    intro _ f hf s t h
    simp only [Optic.overE] at h
    by_cases hp : p s = true
    · rw [if_pos hp] at h
      exact hf s t h
    · rw [if_neg hp] at h
      injection h with h
      exact h.symm
  | iso fwd bwd =>
    intro hw f hf s t h
    simp only [Optic.overE] at h
    obtain ⟨v, hv, hg⟩ := except_bind_ok_inv h
    obtain rfl := hf _ _ hv
    injection hg with hg
    rw [← hg]
    exact hw s
  | getzoomattr n =>
    intro _ f hf s t h
    cases s with
    | obj fields =>
      simp only [Optic.overE] at h
      cases hl : attrLookup fields n with
      | none => rw [hl] at h; exact Except.noConfusion h
      | some v =>
        rw [hl] at h
        obtain ⟨v', hv, hg⟩ := except_bind_ok_inv h
        rw [hf _ _ hv] at hg
        injection hg with hg
        rw [← hg, attrSet_lookup_self fields n v hl]
    | none => exact Except.noConfusion h
    | int m => exact Except.noConfusion h
    | str a => exact Except.noConfusion h
    | list xs => exact Except.noConfusion h
  | comp a b iha ihb =>
    intro hw f hf s t h
    exact iha hw.1 (fun m => b.overE m f) (fun v t' h' => ihb hw.2 f hf v t' h') s t h

/-- C9: identity law — for every optic chain (with its user-supplied
isomorphisms satisfying their documented round-trip contract) and every
state to which it is bound, `modify` with the identity function can only
return a state equal (by value) to the original state. -/
theorem claim9_identity_law (o : Optic) (s t : Val) (hw : o.wellBehaved) (hs : s ≠ .none)
    (h : LensUI.modify ⟨s, o⟩ (fun v => v) .none = .ok t) : t = s := by
  simp only [LensUI.modify, bindIf_none, ebind_ok,
    bound_assert ⟨s, o⟩ hs "Lens.modify", Optic.over] at h
  exact overE_id_ok o hw _ (fun v t' h' => (Except.ok.inj h').symm) s t h

theorem claim9_witness :
    Val.list [.int 1, .int 2, .int 3] = Val.list [.int 1, .int 2, .int 3] :=
  claim9_identity_law (.getitem 1) (.list [.int 1, .int 2, .int 3])
    (.list [.int 1, .int 2, .int 3]) trivial (by simp) rfl

theorem re_ok_of_reversible : ∀ (o : Optic), o.reversible = true → ∃ r, o.re = .ok r := by
  intro o
  induction o with
  | trivialIso => exact fun _ => ⟨.trivialIso, rfl⟩
  | iso fwd bwd => exact fun _ => ⟨.iso bwd fwd, rfl⟩
  | getitem i => exact fun h => Bool.noConfusion h
  | both => exact fun h => Bool.noConfusion h
  | filt p => exact fun h => Bool.noConfusion h
  | getzoomattr n => exact fun h => Bool.noConfusion h
  | comp a b iha ihb =>
    intro h
    simp only [Optic.reversible, Bool.and_eq_true] at h
    obtain ⟨ra, hra⟩ := iha h.1
    obtain ⟨rb, hrb⟩ := ihb h.2
    exact ⟨.comp rb ra, by simp [Optic.re, hra, hrb]⟩

theorem re_error_of_not_reversible :
    ∀ (o : Optic), o.reversible = false → o.re = .error .capabilityError := by
  intro o
  induction o with
  | trivialIso => exact fun h => Bool.noConfusion h
  | iso fwd bwd => exact fun h => Bool.noConfusion h
  | getitem i => exact fun _ => rfl
  | both => exact fun _ => rfl
  | filt p => exact fun _ => rfl
  | getzoomattr n => exact fun _ => rfl
  | comp a b iha ihb =>
    intro h
    cases hb : b.reversible with
    | false => simp [Optic.re, ihb hb]
    | true =>
      obtain ⟨rb, hrb⟩ := re_ok_of_reversible b hb
      have ha : a.reversible = false := by
        simp only [Optic.reversible, hb, Bool.and_true] at h
        exact h
      simp [Optic.re, hrb, iha ha]

/-- C8: `construct` on an accessor whose chain is fully reversible returns
the result of running the end-to-end-reversed chain on the focus
(`re().view(focus)`); on any chain containing a non-reversible optic it
fails with the capability error. -/
theorem claim8_construct_reversible (o : Optic) (focus : Val) (hf : focus ≠ .none) :
    (o.reversible = true → ∃ r, o.re = .ok r ∧
      LensUI.construct ⟨.none, o⟩ focus = r.view focus)
  ∧ (o.reversible = false →
      LensUI.construct ⟨.none, o⟩ focus = .error .capabilityError) := by
  have hcon : LensUI.construct ⟨.none, o⟩ focus
      = (o.re >>= fun r => r.view focus) := by
    simp [LensUI.construct, LensUI.bindIf, val_isNone_false focus hf,
          LensUI.bind, LensUI.assertUnbound, LensUI.assertBound, Val.isNone]
  constructor
  · intro hrev
    obtain ⟨r, hr⟩ := re_ok_of_reversible o hrev
    exact ⟨r, hr, by rw [hcon, hr, ebind_ok]⟩
  · intro hrev
    rw [hcon, re_error_of_not_reversible o hrev, ebind_err]

theorem claim8_witness :
    (∃ r, Optic.re (.comp .trivialIso (.iso (fun v => v) (fun v => v))) = .ok r ∧
      LensUI.construct ⟨.none, .comp .trivialIso (.iso (fun v => v) (fun v => v))⟩ (.int 5)
        = r.view (.int 5))
  ∧ LensUI.construct ⟨.none, .getitem 0⟩ (.int 5) = .error .capabilityError :=
  ⟨(claim8_construct_reversible (.comp .trivialIso (.iso (fun v => v) (fun v => v)))
      (.int 5) (by simp)).1 rfl,
   (claim8_construct_reversible (.getitem 0) (.int 5) (by simp)).2 rfl⟩

theorem heap_read_alloc_lt (h : Heap) (v : List Int) (a : Nat) (ha : a < h.cells.length) :
    (h.alloc v).1.read a = h.read a := by
  simp [Heap.alloc, Heap.read, List.getElem?_append_left ha]

theorem heap_read_write_ne (h : Heap) (a b : Nat) (hne : b ≠ a) (v : List Int) :
    (h.write a v).read b = h.read b := by
  simp [Heap.write, Heap.read, List.getElem?_set_ne (Ne.symm hne)]

theorem sortMethods_local (hh : Heap) (x y : Nat) (hne : y ≠ x) :
    (sortMethods "sort" hh x).read y = hh.read y := by
  simp [sortMethods, heap_read_write_ne hh x y hne]

/-- C6: `call_mut` on a bound single-focus (`GetitemLens i`) accessor first
copies the focus to a fresh cell (a deep copy by default, a shallow copy
when `shallow` is set — on a flat list the two coincide), runs the named
mutating method on the copy, and makes the copy the new focus: provided the
method only mutates its receiver, every cell of the original state —
including the original focus — is left unmodified, and the new focus
address is not shared with the original state. -/
theorem claim6_call_mut_copies (methods : String → Heap → Nat → Heap) (mname : String)
    (shallow : Bool) (i a : Nat) (h : Heap) (outer : List Nat)
    (hi : outer[i]? = some a)
    (hbound : ∀ x ∈ outer, x < h.cells.length)
    (hlocal : ∀ (hh : Heap) (x y : Nat), y ≠ x → (methods mname hh x).read y = hh.read y) :
    call_mut_heap methods mname shallow i h outer
      = .ok (methods mname (h.alloc (h.read a)).1 h.cells.length,
             outer.set i h.cells.length)
  ∧ h.cells.length ∉ outer
  ∧ (∀ x ∈ outer,
      (methods mname (h.alloc (h.read a)).1 h.cells.length).read x = h.read x) := by
  refine ⟨?_, ?_, ?_⟩
  · unfold call_mut_heap
    rw [hi]
    cases shallow <;> rfl
  · intro hmem
    exact Nat.lt_irrefl _ (hbound _ hmem)
  · intro x hx
    rw [hlocal _ _ _ (Nat.ne_of_lt (hbound x hx))]
    exact heap_read_alloc_lt h _ x (hbound x hx)

theorem claim6_witness :
    (call_mut_heap sortMethods "sort" false 0 ⟨[[3, 1, 2], [5, 4]]⟩ [0, 1]
        = .ok (⟨[[3, 1, 2], [5, 4], [1, 2, 3]]⟩, [2, 1]))
  ∧ 2 ∉ [0, 1]
  ∧ (∀ x ∈ [0, 1],
      Heap.read ⟨[[3, 1, 2], [5, 4], [1, 2, 3]]⟩ x = Heap.read ⟨[[3, 1, 2], [5, 4]]⟩ x) :=
  claim6_call_mut_copies sortMethods "sort" false 0 0 ⟨[[3, 1, 2], [5, 4]]⟩ [0, 1]
    rfl (by decide) (fun hh x y hne => sortMethods_local hh x y hne)

/-- C10: `None` cannot serve as a bound state — an accessor constructed
with state `None` behaves exactly like an unbound accessor (every query
raises the state-binding error), `bind(None)` on an unbound accessor
produces an accessor that is still treated as unbound, and passing
`state=None` as the optional state argument does not bind (it behaves as if
no state argument were given). -/
theorem claim10_none_state_unbound (l : LensUI) (o : Optic) (h : l.state = .none) :
    ((lensMk .none (some o)).get .none = .error (.valueError "Lens.get requires a bound lens"))
  ∧ ((lensMk .none (some o)).get_all .none
      = .error (.valueError "Lens.get_all requires a bound lens"))
  ∧ ((lensMk .none (some o)).get_monoid .none
      = .error (.valueError "Lens.get_monoid requires a bound lens"))
  ∧ (∀ v, (lensMk .none (some o)).set v .none
      = .error (.valueError "Lens.set requires a bound lens"))
  ∧ (∀ f, (lensMk .none (some o)).modify f .none
      = .error (.valueError "Lens.modify requires a bound lens"))
  ∧ (l.bind .none = .ok ⟨.none, l.lens⟩)
  ∧ ((⟨.none, l.lens⟩ : LensUI).get .none
      = .error (.valueError "Lens.get requires a bound lens"))
  ∧ (∀ l' : LensUI, l'.bindIf .none = .ok l') := by
  have u := unbound_errs (lensMk .none (some o)) rfl
  exact ⟨u.1, u.2.1, u.2.2.1, u.2.2.2.1, u.2.2.2.2.1, bind_of_unbound l h .none,
         (unbound_errs ⟨.none, l.lens⟩ rfl).1, fun l' => rfl⟩

theorem claim10_witness :
    LensUI.bind ⟨.none, .both⟩ .none = .ok ⟨.none, .both⟩
  ∧ LensUI.get (lensMk .none (some (.getitem 2))) .none
      = .error (.valueError "Lens.get requires a bound lens") :=
  ⟨(claim10_none_state_unbound ⟨.none, .both⟩ (.getitem 2) rfl).2.2.2.2.2.1,
   (claim10_none_state_unbound ⟨.none, .both⟩ (.getitem 2) rfl).1⟩
